import Mathlib

/-!
Shallow embedding of the real-time chat backend (Socket.IO handlers in
src/lib/socket.ts and REST handlers in src/routes/chat.routes.ts).

Database rows are modelled as Lean structures, the database and the live
connection registry as lists inside a ServerState, timestamps as Nat,
and generated ids as explicit parameters.  Each Socket.IO or Express
handler becomes a pure function from a ServerState (plus the request
parameters) to the new ServerState together with the list of Socket.IO
emits it performs, in order.  REST handlers additionally return the HTTP
response they send.
-/

namespace ChatApp

/-- The message_status enum: sent, delivered, read. -/
inductive MessageStatus
  | sent
  | delivered
  | read
deriving DecidableEq, Repr

/-- A row of the messages table. -/
structure Msg where
  id : Nat
  conversationId : Nat
  senderId : Nat
  content : String
  status : MessageStatus
  isEdited : Bool
  createdAt : Nat
  updatedAt : Nat
deriving DecidableEq, Repr

/-- A row of the conversations table. -/
structure Conversation where
  id : Nat
  name : Option String
  isGroup : Bool
  createdAt : Nat
  updatedAt : Nat
deriving DecidableEq, Repr

/-- A row of the conversation_participants table. -/
structure ParticipantRow where
  conversationId : Nat
  userId : Nat
  joinedAt : Nat
  lastReadAt : Option Nat
deriving DecidableEq, Repr

/-- The presence-relevant part of a row of the users table. -/
structure UserRow where
  id : Nat
  isOnline : Bool
  lastSeen : Option Nat
deriving DecidableEq, Repr

/-- A live authenticated Socket.IO connection: its socket id, the user
attached by the auth middleware, and the set of conversation rooms it
has joined (socket.join). -/
structure Conn where
  connId : Nat
  userId : Nat
  rooms : List Nat
deriving DecidableEq, Repr

/-- The whole observable server state: database tables plus the live
connection registry. -/
structure ServerState where
  users : List UserRow
  conversations : List Conversation
  participants : List ParticipantRow
  messages : List Msg
  conns : List Conn
deriving DecidableEq, Repr

/-- The server-to-client events that the handlers emit. -/
inductive Event
  | userOnline (userId : Nat)
  | userOffline (userId : Nat)
  | conversationJoined (conversationId : Nat)
  | conversationLeft (conversationId : Nat)
  | messageNew (message : Msg)
  | conversationUpdate (conversationId : Nat) (lastMessage : Msg)
  | typingUpdate (conversationId : Nat) (userId : Nat) (isTyping : Bool)
  | messageStatusUpdate (messageId : Nat) (status : MessageStatus) (updatedBy : Nat)
  | errorEvent (message : String)
deriving DecidableEq, Repr

/-- One emit call, tagged with its addressing mode:
socket.emit (toConn), io.to(room).emit (toRoom),
socket.to(room).emit (toRoomExceptSelf), io.emit (toAll). -/
inductive Emit
  | toConn (connId : Nat) (ev : Event)
  | toRoom (conversationId : Nat) (ev : Event)
  | toRoomExceptSelf (conversationId : Nat) (connId : Nat) (ev : Event)
  | toAll (ev : Event)
deriving DecidableEq, Repr

/-- An HTTP response, reduced to the status code and the error payload. -/
inductive RestResponse
  | ok (code : Nat)
  | jsonError (code : Nat) (error : String)
deriving DecidableEq, Repr

/-- JavaScript String.prototype.trim: drop whitespace from both ends.
Stated over the character list of the string so that it reduces on
concrete inputs. -/
def jsTrim (s : String) : String :=
  String.mk (((s.data.dropWhile Char.isWhitespace).reverse.dropWhile
    Char.isWhitespace).reverse)

/-- db.query.conversationParticipants.findFirst with both the
conversation id and the user id fixed, reduced to a Bool. -/
def isParticipant (ps : List ParticipantRow) (conversationId userId : Nat) : Bool :=
  ps.any fun p => decide (p.conversationId = conversationId ∧ p.userId = userId)

/-- db.query.messages.findFirst by message id. -/
def findMsg (ms : List Msg) (messageId : Nat) : Option Msg :=
  ms.find? fun m => decide (m.id = messageId)

/-- Look up a live connection by socket id. -/
def findConn (cs : List Conn) (connId : Nat) : Option Conn :=
  cs.find? fun c => decide (c.connId = connId)

/-- db.update(users).set({isOnline, lastSeen}).where(eq(users.id, userId)). -/
def updateUserPresence (us : List UserRow) (userId : Nat) (online : Bool) (now : Nat) :
    List UserRow :=
  us.map fun u => if u.id = userId then { u with isOnline := online, lastSeen := some now } else u

/-- db.query.conversationParticipants.findMany(where userId), mapped to
the conversation ids (the auto-join list of the connection handler). -/
def userConversationIds (ps : List ParticipantRow) (userId : Nat) : List Nat :=
  (ps.filter fun p => decide (p.userId = userId)).map ParticipantRow.conversationId

/-- The io.on connection handler (socket.ts lines 68-88): set the user
online, auto-join all rooms of conversations the user participates in,
and io.emit user:online.  Socket ids are generated fresh by Socket.IO,
so a connection event never carries the id of a live socket; the guard
makes that explicit in the model. -/
def onConnection (st : ServerState) (connId userId now : Nat) : ServerState × List Emit :=
  match findConn st.conns connId with
  | some _ => (st, [])
  | none =>
      ({ st with
          users := updateUserPresence st.users userId true now
          conns := { connId := connId, userId := userId,
                     rooms := userConversationIds st.participants userId } :: st.conns },
       [Emit.toAll (Event.userOnline userId)])

/-- The conversation:join handler (socket.ts lines 93-113): join the
room and emit conversation:joined only when the socket user is a
participant; otherwise do nothing. -/
def conversationJoin (st : ServerState) (connId conversationId : Nat) :
    ServerState × List Emit :=
  match findConn st.conns connId with
  | none => (st, [])
  | some c =>
      if isParticipant st.participants conversationId c.userId then
        ({ st with
            conns := st.conns.map fun k =>
              if k.connId = connId then { k with rooms := conversationId :: k.rooms } else k },
         [Emit.toConn connId (Event.conversationJoined conversationId)])
      else (st, [])

/-- The conversation:leave handler (socket.ts lines 118-121). -/
def conversationLeave (st : ServerState) (connId conversationId : Nat) :
    ServerState × List Emit :=
  match findConn st.conns connId with
  | none => (st, [])
  | some _ =>
      ({ st with
          conns := st.conns.map fun k =>
            if k.connId = connId then
              { k with rooms := k.rooms.filter fun r => decide (r ≠ conversationId) }
            else k },
       [Emit.toConn connId (Event.conversationLeft conversationId)])

/-- The message:send handler (socket.ts lines 126-181): reject empty
content, then reject a non-participant sender, otherwise insert the
message (status defaults to sent) and broadcast message:new and
conversation:update to the room.  It does not touch the conversations
table. -/
def messageSend (st : ServerState) (connId conversationId : Nat) (content : String)
    (newId now : Nat) : ServerState × List Emit :=
  match findConn st.conns connId with
  | none => (st, [])
  | some c =>
      if jsTrim content = "" then
        (st, [Emit.toConn connId (Event.errorEvent "Message content is required")])
      else if isParticipant st.participants conversationId c.userId then
        let m : Msg :=
          { id := newId, conversationId := conversationId, senderId := c.userId,
            content := jsTrim content, status := MessageStatus.sent, isEdited := false,
            createdAt := now, updatedAt := now }
        ({ st with messages := st.messages ++ [m] },
         [Emit.toRoom conversationId (Event.messageNew m),
          Emit.toRoom conversationId (Event.conversationUpdate conversationId m)])
      else
        (st, [Emit.toConn connId (Event.errorEvent "Not a participant of this conversation")])

/-- The typing:start handler (socket.ts lines 186-201):
socket.to(room).emit typing:update with isTyping true — the addressing
excludes only the originating socket. -/
def typingStart (st : ServerState) (connId conversationId : Nat) : ServerState × List Emit :=
  match findConn st.conns connId with
  | none => (st, [])
  | some c =>
      (st, [Emit.toRoomExceptSelf conversationId connId
              (Event.typingUpdate conversationId c.userId true)])

/-- The typing:stop handler (socket.ts lines 203-218). -/
def typingStop (st : ServerState) (connId conversationId : Nat) : ServerState × List Emit :=
  match findConn st.conns connId with
  | none => (st, [])
  | some c =>
      (st, [Emit.toRoomExceptSelf conversationId connId
              (Event.typingUpdate conversationId c.userId false)])

/-- The message:status handler (socket.ts lines 223-250): update the
status of the message unconditionally (no participant check and no
monotonicity check), then re-read the message and, when it exists,
broadcast message:status:update to its conversation room. -/
def messageStatus (st : ServerState) (connId messageId : Nat) (status : MessageStatus) :
    ServerState × List Emit :=
  match findConn st.conns connId with
  | none => (st, [])
  | some c =>
      let ms := st.messages.map fun m =>
        if m.id = messageId then { m with status := status } else m
      match findMsg ms messageId with
      | none => ({ st with messages := ms }, [])
      | some m =>
          ({ st with messages := ms },
           [Emit.toRoom m.conversationId
              (Event.messageStatusUpdate messageId status c.userId)])

/-- The disconnect handler (socket.ts lines 255-267): set the user
offline and io.emit user:offline, unconditionally, with no grace window
and no check for other live connections of the same user. -/
def onDisconnect (st : ServerState) (connId now : Nat) : ServerState × List Emit :=
  match findConn st.conns connId with
  | none => (st, [])
  | some c =>
      ({ st with
          users := updateUserPresence st.users c.userId false now
          conns := st.conns.filter fun k => decide (k.connId ≠ connId) },
       [Emit.toAll (Event.userOffline c.userId)])

/-- Socket.IO delivery semantics of one emit to one live connection:
socket.emit reaches only the target socket, io.to(room) every socket in
the room, socket.to(room) every socket in the room except the sender,
io.emit every socket. -/
def receivesEmit (st : ServerState) (e : Emit) (connId : Nat) : Bool :=
  match findConn st.conns connId with
  | none => false
  | some c =>
      match e with
      | Emit.toConn target _ => decide (connId = target)
      | Emit.toRoom conv _ => decide (conv ∈ c.rooms)
      | Emit.toRoomExceptSelf conv origin _ => decide (conv ∈ c.rooms ∧ connId ≠ origin)
      | Emit.toAll _ => true

/-- The semantics of building a JavaScript Set from a list and iterating
it: keep the first occurrence of every element, in order. -/
def dedupKeepFirst : List Nat → List Nat
  | [] => []
  | a :: l => a :: dedupKeepFirst (l.filter fun x => decide (x ≠ a))
termination_by l => l.length
decreasing_by
  exact Nat.lt_succ_of_le (List.length_filter_le _ _)

/-- POST /conversations (chat.routes.ts lines 118-153): reject an empty
participantIds list, otherwise insert the conversation and one
participant row per element of the deduplicated list
[...new Set([userId, ...participantIds])]. -/
def restCreateConversation (st : ServerState) (userId : Nat) (participantIds : List Nat)
    (name : Option String) (isGroup : Bool) (newConversationId now : Nat) :
    ServerState × List Emit × RestResponse :=
  if participantIds = [] then
    (st, [], RestResponse.jsonError 400 "At least one participant is required")
  else
    let conv : Conversation :=
      { id := newConversationId, name := name,
        isGroup := isGroup || decide (1 < participantIds.length),
        createdAt := now, updatedAt := now }
    let allParticipantUsers := dedupKeepFirst (userId :: participantIds)
    let newRows := allParticipantUsers.map fun u =>
      ({ conversationId := newConversationId, userId := u, joinedAt := now,
         lastReadAt := none } : ParticipantRow)
    ({ st with
        conversations := st.conversations ++ [conv]
        participants := st.participants ++ newRows },
     [], RestResponse.ok 201)

/-- POST /conversations/:conversationId/messages (chat.routes.ts lines
205-265): reject empty content, then reject a non-participant, then
insert the message (status sent), bump the conversation updatedAt, and
broadcast message:new to the room. -/
def restSendMessage (st : ServerState) (userId conversationId : Nat) (content : String)
    (newId now : Nat) : ServerState × List Emit × RestResponse :=
  if jsTrim content = "" then
    (st, [], RestResponse.jsonError 400 "Message content is required")
  else if isParticipant st.participants conversationId userId then
    let m : Msg :=
      { id := newId, conversationId := conversationId, senderId := userId,
        content := jsTrim content, status := MessageStatus.sent, isEdited := false,
        createdAt := now, updatedAt := now }
    ({ st with
        messages := st.messages ++ [m]
        conversations := st.conversations.map fun cv =>
          if cv.id = conversationId then { cv with updatedAt := now } else cv },
     [Emit.toRoom conversationId (Event.messageNew m)], RestResponse.ok 201)
  else
    (st, [], RestResponse.jsonError 403 "Not a participant of this conversation")

/-- PUT /messages/:messageId (chat.routes.ts lines 271-317): reject
empty content first, then a missing message, then a requester that is
not the sender; otherwise update content, isEdited and updatedAt.  No
emit on this route. -/
def restEditMessage (st : ServerState) (userId messageId : Nat) (content : String)
    (now : Nat) : ServerState × List Emit × RestResponse :=
  if jsTrim content = "" then
    (st, [], RestResponse.jsonError 400 "Message content is required")
  else
    match findMsg st.messages messageId with
    | none => (st, [], RestResponse.jsonError 404 "Message not found")
    | some m =>
        if m.senderId ≠ userId then
          (st, [], RestResponse.jsonError 403 "Not authorized to edit this message")
        else
          ({ st with
              messages := st.messages.map fun k =>
                if k.id = messageId then
                  { k with content := jsTrim content, isEdited := true, updatedAt := now }
                else k },
           [], RestResponse.ok 200)

/-- DELETE /messages/:messageId (chat.routes.ts lines 323-356): reject a
missing message, then a requester that is not the sender; otherwise
delete the row.  No emit on this route. -/
def restDeleteMessage (st : ServerState) (userId messageId : Nat) :
    ServerState × List Emit × RestResponse :=
  match findMsg st.messages messageId with
  | none => (st, [], RestResponse.jsonError 404 "Message not found")
  | some m =>
      if m.senderId ≠ userId then
        (st, [], RestResponse.jsonError 403 "Not authorized to delete this message")
      else
        ({ st with messages := st.messages.filter fun k => decide (k.id ≠ messageId) },
         [], RestResponse.ok 200)

/-- The condition of the bulk update in POST
/conversations/:conversationId/read: same conversation, sender different
from the reader, status not yet read. -/
def markReadHits (conversationId userId : Nat) (m : Msg) : Bool :=
  decide (m.conversationId = conversationId ∧ m.senderId ≠ userId ∧
          m.status ≠ MessageStatus.read)

/-- POST /conversations/:conversationId/read (chat.routes.ts lines
362-413): set lastReadAt of the participant row to now, set every
message of the conversation from another sender that is not yet read to
read, and emit one message:status:update per affected message. -/
def restMarkRead (st : ServerState) (userId conversationId now : Nat) :
    ServerState × List Emit × RestResponse :=
  let ps := st.participants.map fun p =>
    if p.conversationId = conversationId ∧ p.userId = userId then
      { p with lastReadAt := some now }
    else p
  let affected := st.messages.filter (markReadHits conversationId userId)
  let ms := st.messages.map fun m =>
    if markReadHits conversationId userId m then { m with status := MessageStatus.read }
    else m
  ({ st with participants := ps, messages := ms },
   affected.map fun m =>
     Emit.toRoom conversationId
       (Event.messageStatusUpdate m.id MessageStatus.read userId),
   RestResponse.ok 200)

/-- One client-visible operation against the server: the Socket.IO
events and the REST calls.  Fresh ids and the current time are explicit
arguments. -/
inductive Op
  | connect (connId userId now : Nat)
  | join (connId conversationId : Nat)
  | leave (connId conversationId : Nat)
  | socketSend (connId conversationId : Nat) (content : String) (newId now : Nat)
  | socketTypingStart (connId conversationId : Nat)
  | socketTypingStop (connId conversationId : Nat)
  | socketStatus (connId messageId : Nat) (status : MessageStatus)
  | disconnect (connId now : Nat)
  | restCreate (userId : Nat) (participantIds : List Nat) (name : Option String)
      (isGroup : Bool) (newConversationId now : Nat)
  | restSend (userId conversationId : Nat) (content : String) (newId now : Nat)
  | restEdit (userId messageId : Nat) (content : String) (now : Nat)
  | restDelete (userId messageId : Nat)
  | restRead (userId conversationId now : Nat)

/-- Dispatch one operation to its handler. -/
def step (st : ServerState) : Op → ServerState × List Emit
  | Op.connect connId userId now => onConnection st connId userId now
  | Op.join connId conversationId => conversationJoin st connId conversationId
  | Op.leave connId conversationId => conversationLeave st connId conversationId
  | Op.socketSend connId conversationId content newId now =>
      messageSend st connId conversationId content newId now
  | Op.socketTypingStart connId conversationId => typingStart st connId conversationId
  | Op.socketTypingStop connId conversationId => typingStop st connId conversationId
  | Op.socketStatus connId messageId status => messageStatus st connId messageId status
  | Op.disconnect connId now => onDisconnect st connId now
  | Op.restCreate userId participantIds name isGroup newConversationId now =>
      let r := restCreateConversation st userId participantIds name isGroup
        newConversationId now
      (r.1, r.2.1)
  | Op.restSend userId conversationId content newId now =>
      let r := restSendMessage st userId conversationId content newId now
      (r.1, r.2.1)
  | Op.restEdit userId messageId content now =>
      let r := restEditMessage st userId messageId content now
      (r.1, r.2.1)
  | Op.restDelete userId messageId =>
      let r := restDeleteMessage st userId messageId
      (r.1, r.2.1)
  | Op.restRead userId conversationId now =>
      let r := restMarkRead st userId conversationId now
      (r.1, r.2.1)

/-- Run a sequence of operations. -/
def applyOps (st : ServerState) : List Op → ServerState
  | [] => st
  | op :: rest => applyOps (step st op).1 rest

/-- Invariant of claim C5: every room a live connection has joined is a
conversation in which the user of that connection has a participant
row. -/
def roomsOk (st : ServerState) : Prop :=
  ∀ c ∈ st.conns, ∀ r ∈ c.rooms, isParticipant st.participants r c.userId = true

instance : DecidablePred roomsOk := fun st =>
  inferInstanceAs (Decidable (∀ c ∈ st.conns, ∀ r ∈ c.rooms, _ = true))

/-- Socket ids of the live connections are distinct (Socket.IO generates
a fresh id per connection). -/
def connIdsNodup (st : ServerState) : Prop :=
  (st.conns.map Conn.connId).Nodup

/-- The combined inductive invariant for claim C5. -/
def stateInv (st : ServerState) : Prop :=
  connIdsNodup st ∧ roomsOk st

theorem findConn_eq_some_of_mem {l : List Conn} (hn : (l.map Conn.connId).Nodup)
    {c : Conn} (hc : c ∈ l) : findConn l c.connId = some c := by
  induction l with
  | nil => cases hc
  | cons a l ih =>
    have hn2 := List.nodup_cons.mp hn
    rcases List.mem_cons.mp hc with rfl | hc2
    · unfold findConn
      rw [List.find?_cons_of_pos]
      simp
    · have hne : a.connId ≠ c.connId := fun he =>
        hn2.1 (he ▸ List.mem_map_of_mem Conn.connId hc2)
      unfold findConn at ih ⊢
      rw [List.find?_cons_of_neg]
      · exact ih hn2.2 hc2
      · simpa using hne

theorem isParticipant_append_left {ps qs : List ParticipantRow} {cid uid : Nat}
    (h : isParticipant ps cid uid = true) : isParticipant (ps ++ qs) cid uid = true := by
  unfold isParticipant at h ⊢
  rw [List.any_append, h]
  simp

theorem isParticipant_markRead (ps : List ParticipantRow)
    (cid uid conversationId userId now : Nat)
    (h : isParticipant ps cid uid = true) :
    isParticipant (ps.map fun p =>
      if p.conversationId = conversationId ∧ p.userId = userId then
        { p with lastReadAt := some now } else p) cid uid = true := by
  unfold isParticipant at h ⊢
  rw [List.any_eq_true] at h ⊢
  obtain ⟨p, hp, hcond⟩ := h
  refine ⟨if p.conversationId = conversationId ∧ p.userId = userId then
    { p with lastReadAt := some now } else p, List.mem_map_of_mem _ hp, ?_⟩
  split <;> simpa using hcond

theorem stateInv_of_eq_parts (st st' : ServerState)
    (hc : st'.conns = st.conns) (hp : st'.participants = st.participants)
    (h : stateInv st) : stateInv st' := by
  unfold stateInv connIdsNodup roomsOk at h ⊢
  rw [hc, hp]
  exact h

theorem stateInv_step (st : ServerState) (op : Op) (h : stateInv st) :
    stateInv (step st op).1 := by
  obtain ⟨hn, hr⟩ := h
  cases op with
  | connect connId userId now =>
    show stateInv (onConnection st connId userId now).1
    unfold onConnection
    cases hfc : findConn st.conns connId with
    | some c => exact stateInv_of_eq_parts st _ rfl rfl ⟨hn, hr⟩
    | none =>
      refine ⟨?_, ?_⟩
      · unfold connIdsNodup
        simp only [List.map_cons]
        rw [List.nodup_cons]
        refine ⟨?_, hn⟩
        intro hmem
        obtain ⟨c, hc, hcid⟩ := List.mem_map.mp hmem
        have hnot := List.find?_eq_none.mp hfc c hc
        simp at hnot
        exact hnot hcid
      · intro c hc r hr2
        simp only [List.mem_cons] at hc
        rcases hc with rfl | hc2
        · simp only [userConversationIds] at hr2
          obtain ⟨p, hp, rfl⟩ := List.mem_map.mp hr2
          have hp2 := List.mem_filter.mp hp
          unfold isParticipant
          rw [List.any_eq_true]
          exact ⟨p, hp2.1, by simpa using (of_decide_eq_true hp2.2).symm ▸
            (by simp [of_decide_eq_true hp2.2])⟩
        · exact hr c hc2 r hr2
  | join connId conversationId =>
    show stateInv (conversationJoin st connId conversationId).1
    unfold conversationJoin
    cases hfc : findConn st.conns connId with
    | none => exact stateInv_of_eq_parts st _ rfl rfl ⟨hn, hr⟩
    | some c0 =>
      by_cases hp : isParticipant st.participants conversationId c0.userId
      · simp only [hp, if_true]
        refine ⟨?_, ?_⟩
        · unfold connIdsNodup
          simp only [List.map_map]
          have : ∀ k ∈ st.conns, (Conn.connId ∘ fun k =>
              if k.connId = connId then { k with rooms := conversationId :: k.rooms }
              else k) k = Conn.connId k := by
            intro k _
            by_cases hk : k.connId = connId <;> simp [hk]
          rw [List.map_congr_left this]
          exact hn
        · intro c hc r hr2
          obtain ⟨k, hk, rfl⟩ := List.mem_map.mp hc
          by_cases hkc : k.connId = connId
          · have h1 : findConn st.conns k.connId = some c0 := hkc ▸ hfc
            have h2 : findConn st.conns k.connId = some k :=
              findConn_eq_some_of_mem hn hk
            have hkeq : k = c0 := by
              have := h1.symm.trans h2
              exact (Option.some.inj this).symm
            simp only [hkc, if_true] at hr2 ⊢
            simp only [List.mem_cons] at hr2
            rcases hr2 with rfl | hr3
            · simpa [hkeq] using hp
            · simpa using hr k hk r hr3
          · simp only [hkc, if_false] at hr2 ⊢
            exact hr k hk r hr2
      · simp only [hp, if_false]
        exact stateInv_of_eq_parts st _ rfl rfl ⟨hn, hr⟩
  | leave connId conversationId =>
    show stateInv (conversationLeave st connId conversationId).1
    unfold conversationLeave
    cases hfc : findConn st.conns connId with
    | none => exact stateInv_of_eq_parts st _ rfl rfl ⟨hn, hr⟩
    | some c0 =>
      refine ⟨?_, ?_⟩
      · unfold connIdsNodup
        simp only [List.map_map]
        have : ∀ k ∈ st.conns, (Conn.connId ∘ fun k =>
            if k.connId = connId then
              { k with rooms := k.rooms.filter fun r => decide (r ≠ conversationId) }
            else k) k = Conn.connId k := by
          intro k _
          by_cases hk : k.connId = connId <;> simp [hk]
        rw [List.map_congr_left this]
        exact hn
      · intro c hc r hr2
        obtain ⟨k, hk, rfl⟩ := List.mem_map.mp hc
        by_cases hkc : k.connId = connId
        · simp only [hkc, if_true] at hr2 ⊢
          have hr3 := List.mem_of_mem_filter hr2
          simpa using hr k hk r hr3
        · simp only [hkc, if_false] at hr2 ⊢
          exact hr k hk r hr2
  | socketSend connId conversationId content newId now =>
    show stateInv (messageSend st connId conversationId content newId now).1
    unfold messageSend
    cases hfc : findConn st.conns connId with
    | none => exact stateInv_of_eq_parts st _ rfl rfl ⟨hn, hr⟩
    | some c0 =>
      by_cases h1 : jsTrim content = ""
      · simp only [h1, if_true]
        exact stateInv_of_eq_parts st _ rfl rfl ⟨hn, hr⟩
      · simp only [h1, if_false]
        by_cases h2 : isParticipant st.participants conversationId c0.userId
        · simp only [h2, if_true]
          exact stateInv_of_eq_parts st _ rfl rfl ⟨hn, hr⟩
        · simp only [h2, if_false]
          exact stateInv_of_eq_parts st _ rfl rfl ⟨hn, hr⟩
  | socketTypingStart connId conversationId =>
    show stateInv (typingStart st connId conversationId).1
    unfold typingStart
    cases hfc : findConn st.conns connId with
    | none => exact stateInv_of_eq_parts st _ rfl rfl ⟨hn, hr⟩
    | some c0 => exact stateInv_of_eq_parts st _ rfl rfl ⟨hn, hr⟩
  | socketTypingStop connId conversationId =>
    show stateInv (typingStop st connId conversationId).1
    unfold typingStop
    cases hfc : findConn st.conns connId with
    | none => exact stateInv_of_eq_parts st _ rfl rfl ⟨hn, hr⟩
    | some c0 => exact stateInv_of_eq_parts st _ rfl rfl ⟨hn, hr⟩
  | socketStatus connId messageId status =>
    show stateInv (messageStatus st connId messageId status).1
    unfold messageStatus
    split
    · exact stateInv_of_eq_parts st _ rfl rfl ⟨hn, hr⟩
    · dsimp only
      split
      · exact stateInv_of_eq_parts st _ rfl rfl ⟨hn, hr⟩
      · exact stateInv_of_eq_parts st _ rfl rfl ⟨hn, hr⟩
  | disconnect connId now =>
    show stateInv (onDisconnect st connId now).1
    unfold onDisconnect
    cases hfc : findConn st.conns connId with
    | none => exact stateInv_of_eq_parts st _ rfl rfl ⟨hn, hr⟩
    | some c0 =>
      refine ⟨?_, ?_⟩
      · unfold connIdsNodup
        exact ((List.filter_sublist _).map Conn.connId).nodup hn
      · intro c hc r hr2
        exact hr c (List.mem_of_mem_filter hc) r hr2
  | restCreate userId participantIds name isGroup newConversationId now =>
    show stateInv ((restCreateConversation st userId participantIds name isGroup
      newConversationId now).1, _).1
    unfold restCreateConversation
    by_cases hp : participantIds = []
    · simp only [hp, if_true]
      exact stateInv_of_eq_parts st _ rfl rfl ⟨hn, hr⟩
    · simp only [hp, if_false]
      refine ⟨hn, ?_⟩
      intro c hc r hr2
      exact isParticipant_append_left (hr c hc r hr2)
  | restSend userId conversationId content newId now =>
    show stateInv ((restSendMessage st userId conversationId content newId now).1, _).1
    unfold restSendMessage
    by_cases h1 : jsTrim content = ""
    · simp only [h1, if_true]
      exact stateInv_of_eq_parts st _ rfl rfl ⟨hn, hr⟩
    · simp only [h1, if_false]
      by_cases h2 : isParticipant st.participants conversationId userId
      · simp only [h2, if_true]
        exact stateInv_of_eq_parts st _ rfl rfl ⟨hn, hr⟩
      · simp only [h2, if_false]
        exact stateInv_of_eq_parts st _ rfl rfl ⟨hn, hr⟩
  | restEdit userId messageId content now =>
    show stateInv ((restEditMessage st userId messageId content now).1, _).1
    unfold restEditMessage
    by_cases h1 : jsTrim content = ""
    · simp only [h1, if_true]
      exact stateInv_of_eq_parts st _ rfl rfl ⟨hn, hr⟩
    · simp only [h1, if_false]
      split
      · exact stateInv_of_eq_parts st _ rfl rfl ⟨hn, hr⟩
      · split
        · exact stateInv_of_eq_parts st _ rfl rfl ⟨hn, hr⟩
        · exact stateInv_of_eq_parts st _ rfl rfl ⟨hn, hr⟩
  | restDelete userId messageId =>
    show stateInv ((restDeleteMessage st userId messageId).1, _).1
    unfold restDeleteMessage
    split
    · exact stateInv_of_eq_parts st _ rfl rfl ⟨hn, hr⟩
    · split
      · exact stateInv_of_eq_parts st _ rfl rfl ⟨hn, hr⟩
      · exact stateInv_of_eq_parts st _ rfl rfl ⟨hn, hr⟩
  | restRead userId conversationId now =>
    show stateInv ((restMarkRead st userId conversationId now).1, _).1
    unfold restMarkRead
    refine ⟨hn, ?_⟩
    intro c hc r hr2
    exact isParticipant_markRead st.participants r c.userId conversationId userId now
      (hr c hc r hr2)

theorem stateInv_applyOps (st : ServerState) (ops : List Op) (h : stateInv st) :
    stateInv (applyOps st ops) := by
  induction ops generalizing st with
  | nil => exact h
  | cons op rest ih => exact ih _ (stateInv_step st op h)

/-- The forward order of message statuses: sent before delivered before
read. -/
def statusRank : MessageStatus → Nat
  | MessageStatus.sent => 0
  | MessageStatus.delivered => 1
  | MessageStatus.read => 2

/-- The message of the running example: message 1 of conversation 10,
sent by user 6, already read. -/
def exMsgRead : Msg :=
  { id := 1, conversationId := 10, senderId := 6, content := "hi",
    status := MessageStatus.read, isEdited := false, createdAt := 0, updatedAt := 0 }

/-- The running concrete example: users 5 and 6 share conversation 10;
user 5 has two live connections 1 and 2, both joined to room 10; user 7
has live connection 3 and is not a participant of conversation 10;
message 1 is exMsgRead. -/
def exSt : ServerState :=
  { users := [{ id := 5, isOnline := true, lastSeen := some 0 },
              { id := 6, isOnline := true, lastSeen := some 0 },
              { id := 7, isOnline := true, lastSeen := some 0 }]
    conversations := [{ id := 10, name := none, isGroup := false, createdAt := 0,
                        updatedAt := 100 }]
    participants := [{ conversationId := 10, userId := 5, joinedAt := 0, lastReadAt := none },
                     { conversationId := 10, userId := 6, joinedAt := 0, lastReadAt := none }]
    messages := [exMsgRead]
    conns := [{ connId := 1, userId := 5, rooms := [10] },
              { connId := 2, userId := 5, rooms := [10] },
              { connId := 3, userId := 7, rooms := [] }] }

theorem findMsg_map_setStatus (l : List Msg) (messageId : Nat) (s : MessageStatus)
    (m : Msg) (h : findMsg l messageId = some m) :
    findMsg (l.map fun k => if k.id = messageId then { k with status := s } else k)
      messageId = some { m with status := s } := by
  induction l with
  | nil => simp [findMsg] at h
  | cons a l ih =>
    by_cases ha : a.id = messageId
    · unfold findMsg at h
      rw [List.find?_cons_of_pos _ (by simpa using ha)] at h
      have ham : a = m := Option.some.inj h
      subst ham
      unfold findMsg
      simp only [List.map_cons]
      rw [List.find?_cons_of_pos _ (by simp [ha])]
      simp [ha]
    · unfold findMsg at h
      rw [List.find?_cons_of_neg _ (by simpa using ha)] at h
      unfold findMsg at ih ⊢
      simp only [List.map_cons]
      rw [List.find?_cons_of_neg _ (by simp [ha])]
      exact ih h

/-- Exact behaviour of the message:status handler on an existing
message: unconditional status overwrite plus one room broadcast. -/
theorem messageStatus_spec (st : ServerState) (connId messageId : Nat)
    (status : MessageStatus) (c : Conn) (m : Msg)
    (hc : findConn st.conns connId = some c)
    (hm : findMsg st.messages messageId = some m) :
    (messageStatus st connId messageId status).1.messages =
      (st.messages.map fun k =>
        if k.id = messageId then { k with status := status } else k) ∧
    (messageStatus st connId messageId status).2 =
      [Emit.toRoom m.conversationId
        (Event.messageStatusUpdate messageId status c.userId)] := by
  unfold messageStatus
  rw [hc]
  dsimp only
  rw [findMsg_map_setStatus st.messages messageId status m hm]
  exact ⟨rfl, rfl⟩

/-- Claim C1 counterexample: message 1 has status read; a message:status
request for the strictly earlier status delivered is not a no-op — the
stored status regresses to delivered and a message:status:update
broadcast is emitted. -/
theorem C1_counterexample :
    findMsg exSt.messages 1 = some exMsgRead ∧
    statusRank MessageStatus.delivered ≤ statusRank exMsgRead.status ∧
    ¬ ((messageStatus exSt 1 1 MessageStatus.delivered).1.messages = exSt.messages ∧
       (messageStatus exSt 1 1 MessageStatus.delivered).2 = []) ∧
    (messageStatus exSt 1 1 MessageStatus.delivered).1.messages =
      [{ exMsgRead with status := MessageStatus.delivered }] ∧
    (messageStatus exSt 1 1 MessageStatus.delivered).2 =
      [Emit.toRoom 10 (Event.messageStatusUpdate 1 MessageStatus.delivered 5)] := by
  decide

/-- Claim C1 (amended): the message:status handler has no monotonicity
check: for every existing message and every requested status — also one
equal to or earlier than the current status — it overwrites the stored
status with the requested one and emits exactly one
message:status:update broadcast to the room of the message. -/
theorem C1_status_overwrite (st : ServerState) (connId messageId : Nat)
    (status : MessageStatus) (c : Conn) (m : Msg)
    (hc : findConn st.conns connId = some c)
    (hm : findMsg st.messages messageId = some m) :
    (messageStatus st connId messageId status).1.messages =
      (st.messages.map fun k =>
        if k.id = messageId then { k with status := status } else k) ∧
    (messageStatus st connId messageId status).2 =
      [Emit.toRoom m.conversationId
        (Event.messageStatusUpdate messageId status c.userId)] :=
  messageStatus_spec st connId messageId status c m hc hm

theorem C1_status_overwrite_witness :
    (messageStatus exSt 1 1 MessageStatus.delivered).1.messages =
      (exSt.messages.map fun k =>
        if k.id = 1 then { k with status := MessageStatus.delivered } else k) ∧
    (messageStatus exSt 1 1 MessageStatus.delivered).2 =
      [Emit.toRoom exMsgRead.conversationId
        (Event.messageStatusUpdate 1 MessageStatus.delivered 5)] :=
  C1_status_overwrite exSt 1 1 MessageStatus.delivered
    { connId := 1, userId := 5, rooms := [10] } exMsgRead (by decide) (by decide)

/-- Claim C9: the message:status handler performs no participant check:
for an authenticated connection and an existing message, the status is
overwritten and message:status:update is broadcast to the room of the
message even when the requesting user is not a participant of that
conversation. -/
theorem C9_no_participant_check (st : ServerState) (connId messageId : Nat)
    (status : MessageStatus) (c : Conn) (m : Msg)
    (hc : findConn st.conns connId = some c)
    (hm : findMsg st.messages messageId = some m)
    (_hnp : isParticipant st.participants m.conversationId c.userId = false) :
    (messageStatus st connId messageId status).1.messages =
      (st.messages.map fun k =>
        if k.id = messageId then { k with status := status } else k) ∧
    (messageStatus st connId messageId status).2 =
      [Emit.toRoom m.conversationId
        (Event.messageStatusUpdate messageId status c.userId)] :=
  messageStatus_spec st connId messageId status c m hc hm

theorem C9_no_participant_check_witness :
    isParticipant exSt.participants exMsgRead.conversationId 7 = false ∧
    ((messageStatus exSt 3 1 MessageStatus.read).1.messages =
      (exSt.messages.map fun k =>
        if k.id = 1 then { k with status := MessageStatus.read } else k) ∧
    (messageStatus exSt 3 1 MessageStatus.read).2 =
      [Emit.toRoom exMsgRead.conversationId
        (Event.messageStatusUpdate 1 MessageStatus.read 7)]) :=
  ⟨by decide,
   C9_no_participant_check exSt 3 1 MessageStatus.read
     { connId := 3, userId := 7, rooms := [] } exMsgRead (by decide) (by decide) (by decide)⟩

/-- Claim C2 counterexample: user 5 has two live connections 1 and 2;
disconnecting connection 1 emits user:offline for user 5 immediately,
although connection 2 of the same user is still live. -/
theorem C2_counterexample :
    (onDisconnect exSt 1 99).2 = [Emit.toAll (Event.userOffline 5)] ∧
    findConn (onDisconnect exSt 1 99).1.conns 2 =
      some { connId := 2, userId := 5, rooms := [10] } := by
  decide

/-- Claim C2 (amended): presence broadcasts are per connection, not per
user transition: every disconnect of a live connection immediately emits
exactly one user:offline for the user of that connection, regardless of
the other live connections of the same user, and every new connection
emits exactly one user:online; there is no grace window and no
deduplication. -/
theorem C2_presence_per_connection :
    (∀ st connId now c, findConn st.conns connId = some c →
      (onDisconnect st connId now).2 = [Emit.toAll (Event.userOffline c.userId)]) ∧
    (∀ st connId userId now, findConn st.conns connId = none →
      (onConnection st connId userId now).2 = [Emit.toAll (Event.userOnline userId)]) := by
  constructor
  · intro st connId now c hc
    unfold onDisconnect
    rw [hc]
  · intro st connId userId now hc
    unfold onConnection
    rw [hc]

theorem C2_presence_per_connection_witness :
    (onDisconnect exSt 1 99).2 = [Emit.toAll (Event.userOffline 5)] ∧
    (onConnection exSt 4 9 7).2 = [Emit.toAll (Event.userOnline 9)] :=
  ⟨C2_presence_per_connection.1 exSt 1 99 { connId := 1, userId := 5, rooms := [10] }
     (by decide),
   C2_presence_per_connection.2 exSt 4 9 7 (by decide)⟩

/-- Claim C5: starting from any state with no live connections, after
any sequence of operations every room a live connection has joined is a
conversation in which the user of that connection has a participant
row. -/
theorem C5_rooms_require_participation (st : ServerState) (h : st.conns = [])
    (ops : List Op) : roomsOk (applyOps st ops) := by
  have hinv : stateInv st := by
    constructor
    · unfold connIdsNodup
      rw [h]
      exact List.nodup_nil
    · intro c hc r hr2
      rw [h] at hc
      cases hc
  exact (stateInv_applyOps st ops hinv).2

theorem C5_rooms_require_participation_witness :
    roomsOk (applyOps { exSt with conns := [] }
      [Op.connect 1 5 0, Op.join 1 10, Op.restCreate 5 [6] none false 11 1,
       Op.join 1 11, Op.leave 1 10, Op.connect 4 7 1, Op.join 4 10,
       Op.disconnect 1 2]) :=
  C5_rooms_require_participation { exSt with conns := [] } rfl
    [Op.connect 1 5 0, Op.join 1 10, Op.restCreate 5 [6] none false 11 1,
     Op.join 1 11, Op.leave 1 10, Op.connect 4 7 1, Op.join 4 10,
     Op.disconnect 1 2]

/-- Claim C3 counterexample: user 7 (connection 3) is not a participant
of conversation 10, yet a message:send whose content trims to empty is
rejected with the content-required error, not with the
not-a-participant error: the participant check is not the first check.
The state is still unchanged and only the requester is notified. -/
theorem C3_counterexample :
    isParticipant exSt.participants 10 7 = false ∧
    messageSend exSt 3 10 "" 50 60 =
      (exSt, [Emit.toConn 3 (Event.errorEvent "Message content is required")]) := by
  decide

/-- Claim C3 (amended): for every message:send whose content does not
trim to empty, sent on behalf of a user who is not a participant of the
conversation, the handler leaves the state exactly unchanged (no message
row is created) and emits only the not-a-participant error to the
requesting connection; no other connection receives anything.  A send
whose content trims to empty is instead rejected with the
content-required error before the participant check, likewise with no
state change. -/
theorem C3_not_participant_rejection (st : ServerState) (connId conversationId : Nat)
    (content : String) (newId now : Nat) (c : Conn)
    (hc : findConn st.conns connId = some c)
    (hne : jsTrim content ≠ "")
    (hnp : isParticipant st.participants conversationId c.userId = false) :
    messageSend st connId conversationId content newId now =
      (st, [Emit.toConn connId
        (Event.errorEvent "Not a participant of this conversation")]) ∧
    ∀ otherId, otherId ≠ connId →
      receivesEmit st (Emit.toConn connId
        (Event.errorEvent "Not a participant of this conversation")) otherId = false := by
  constructor
  · unfold messageSend
    rw [hc]
    dsimp only
    rw [if_neg hne, hnp]
    simp
  · intro otherId hno
    unfold receivesEmit
    cases findConn st.conns otherId with
    | none => rfl
    | some k => simpa using hno

theorem C3_not_participant_rejection_witness :
    (messageSend exSt 3 10 "x" 50 60 =
      (exSt, [Emit.toConn 3
        (Event.errorEvent "Not a participant of this conversation")])) ∧
    receivesEmit exSt (Emit.toConn 3
      (Event.errorEvent "Not a participant of this conversation")) 1 = false :=
  ⟨(C3_not_participant_rejection exSt 3 10 "x" 50 60
      { connId := 3, userId := 7, rooms := [] } (by decide) (by decide) (by decide)).1,
   (C3_not_participant_rejection exSt 3 10 "x" 50 60
      { connId := 3, userId := 7, rooms := [] } (by decide) (by decide) (by decide)).2
     1 (by decide)⟩

/-- Claim C6 counterexample: a successful message:send on the live
connection path (user 5, connection 1, participant of conversation 10)
persists the message with status sent and broadcasts, but leaves the
updatedAt of conversation 10 at its old value 100 instead of bumping it
to the send time 200. -/
theorem C6_counterexample :
    isParticipant exSt.participants 10 5 = true ∧
    (messageSend exSt 1 10 "yo" 7 200).1.messages =
      exSt.messages ++
        [{ id := 7, conversationId := 10, senderId := 5, content := "yo",
           status := MessageStatus.sent, isEdited := false, createdAt := 200,
           updatedAt := 200 }] ∧
    (messageSend exSt 1 10 "yo" 7 200).1.conversations =
      [{ id := 10, name := none, isGroup := false, createdAt := 0, updatedAt := 100 }] := by
  decide

/-- Claim C6 (amended): on every successful send the message is
persisted with status sent and message:new is broadcast to the room of
the conversation, with the broadcast message already present in the
persisted state.  The REST path additionally bumps the updatedAt of the
conversation; the live-connection path does not touch the conversations
table (it emits a conversation:update event instead). -/
theorem C6_send_success_paths :
    (∀ st userId conversationId content newId now,
      jsTrim content ≠ "" →
      isParticipant st.participants conversationId userId = true →
      (restSendMessage st userId conversationId content newId now).1.messages =
        st.messages ++
          [{ id := newId, conversationId := conversationId, senderId := userId,
             content := jsTrim content, status := MessageStatus.sent, isEdited := false,
             createdAt := now, updatedAt := now }] ∧
      (∀ cv ∈ (restSendMessage st userId conversationId content newId now).1.conversations,
        cv.id = conversationId → cv.updatedAt = now) ∧
      (restSendMessage st userId conversationId content newId now).2.1 =
        [Emit.toRoom conversationId (Event.messageNew
          { id := newId, conversationId := conversationId, senderId := userId,
            content := jsTrim content, status := MessageStatus.sent, isEdited := false,
            createdAt := now, updatedAt := now })] ∧
      { id := newId, conversationId := conversationId, senderId := userId,
        content := jsTrim content, status := MessageStatus.sent, isEdited := false,
        createdAt := now, updatedAt := now } ∈
        (restSendMessage st userId conversationId content newId now).1.messages) ∧
    (∀ st connId conversationId content newId now c,
      findConn st.conns connId = some c →
      jsTrim content ≠ "" →
      isParticipant st.participants conversationId c.userId = true →
      (messageSend st connId conversationId content newId now).1.messages =
        st.messages ++
          [{ id := newId, conversationId := conversationId, senderId := c.userId,
             content := jsTrim content, status := MessageStatus.sent, isEdited := false,
             createdAt := now, updatedAt := now }] ∧
      (messageSend st connId conversationId content newId now).1.conversations =
        st.conversations ∧
      (messageSend st connId conversationId content newId now).2 =
        [Emit.toRoom conversationId (Event.messageNew
          { id := newId, conversationId := conversationId, senderId := c.userId,
            content := jsTrim content, status := MessageStatus.sent, isEdited := false,
            createdAt := now, updatedAt := now }),
         Emit.toRoom conversationId (Event.conversationUpdate conversationId
          { id := newId, conversationId := conversationId, senderId := c.userId,
            content := jsTrim content, status := MessageStatus.sent, isEdited := false,
            createdAt := now, updatedAt := now })] ∧
      { id := newId, conversationId := conversationId, senderId := c.userId,
        content := jsTrim content, status := MessageStatus.sent, isEdited := false,
        createdAt := now, updatedAt := now } ∈
        (messageSend st connId conversationId content newId now).1.messages) := by
  constructor
  · intro st userId conversationId content newId now hne hp
    unfold restSendMessage
    rw [if_neg hne, hp, if_pos rfl]
    refine ⟨rfl, ?_, rfl, by simp⟩
    intro cv hcv hid
    obtain ⟨cv0, hcv0, rfl⟩ := List.mem_map.mp hcv
    by_cases h0 : cv0.id = conversationId
    · rw [if_pos h0]
    · rw [if_neg h0] at hid ⊢
      exact absurd hid h0
  · intro st connId conversationId content newId now c hc hne hp
    unfold messageSend
    rw [hc]
    dsimp only
    rw [if_neg hne, hp, if_pos rfl]
    exact ⟨rfl, rfl, rfl, by simp⟩

theorem C6_send_success_paths_witness :
    ((restSendMessage exSt 6 10 "ok" 8 300).1.messages =
      exSt.messages ++
        [{ id := 8, conversationId := 10, senderId := 6, content := jsTrim "ok",
           status := MessageStatus.sent, isEdited := false, createdAt := 300,
           updatedAt := 300 }]) ∧
    ((messageSend exSt 1 10 "yo" 7 200).1.conversations = exSt.conversations) :=
  ⟨(C6_send_success_paths.1 exSt 6 10 "ok" 8 300 (by decide) (by decide)).1,
   ((C6_send_success_paths.2 exSt 1 10 "yo" 7 200
      { connId := 1, userId := 5, rooms := [10] } (by decide) (by decide)
      (by decide)).2.1)⟩

/-- Claim C7 counterexample: user 5 is not the sender of message 1
(sender is user 6); an edit attempt by user 5 whose content trims to
empty is rejected with the 400 content-required error, not with the 403
Forbidden error: the validation check runs before the ownership check. -/
theorem C7_counterexample :
    exMsgRead.senderId = 6 ∧
    restEditMessage exSt 5 1 "" 99 =
      (exSt, [], RestResponse.jsonError 400 "Message content is required") := by
  decide

/-- Claim C7 (amended): every delete attempt, and every edit attempt
whose content does not trim to empty, on an existing message by a user
other than the sender is rejected with the 403 Forbidden response and
leaves the state — in particular the message row, in every field —
exactly unchanged.  An edit attempt with empty content is rejected with
the 400 validation error before the ownership check, likewise leaving
the state unchanged. -/
theorem C7_forbidden_for_non_sender (st : ServerState) (userId messageId : Nat)
    (m : Msg) (hm : findMsg st.messages messageId = some m)
    (hs : m.senderId ≠ userId) :
    (∀ content now, jsTrim content ≠ "" →
      restEditMessage st userId messageId content now =
        (st, [], RestResponse.jsonError 403 "Not authorized to edit this message")) ∧
    restDeleteMessage st userId messageId =
      (st, [], RestResponse.jsonError 403 "Not authorized to delete this message") := by
  constructor
  · intro content now hne
    unfold restEditMessage
    rw [if_neg hne, hm]
    dsimp only
    rw [if_pos hs]
  · unfold restDeleteMessage
    rw [hm]
    dsimp only
    rw [if_pos hs]

theorem C7_forbidden_for_non_sender_witness :
    (restEditMessage exSt 5 1 "zz" 99 =
      (exSt, [], RestResponse.jsonError 403 "Not authorized to edit this message")) ∧
    (restDeleteMessage exSt 5 1 =
      (exSt, [], RestResponse.jsonError 403 "Not authorized to delete this message")) :=
  ⟨(C7_forbidden_for_non_sender exSt 5 1 exMsgRead (by decide) (by decide)).1 "zz" 99
     (by decide),
   (C7_forbidden_for_non_sender exSt 5 1 exMsgRead (by decide) (by decide)).2⟩

/-- Claim C8 counterexample: user 5 types on connection 1 in
conversation 10; connection 2 — another live connection of the same
user 5, joined to room 10 — receives the typing:update broadcast, so
the exclusion is not by user. -/
theorem C8_counterexample :
    (typingStart exSt 1 10).2 =
      [Emit.toRoomExceptSelf 10 1 (Event.typingUpdate 10 5 true)] ∧
    findConn exSt.conns 2 = some { connId := 2, userId := 5, rooms := [10] } ∧
    receivesEmit exSt (Emit.toRoomExceptSelf 10 1 (Event.typingUpdate 10 5 true)) 2 =
      true := by
  decide

/-- Claim C8 (amended): typing:start and typing:stop broadcast exactly
one typing:update to the room excluding only the originating connection:
a live connection receives it exactly when it has joined the room and is
not the originating socket — in particular other connections of the
typing user do receive it. -/
theorem C8_typing_excludes_only_socket (st : ServerState)
    (connId conversationId : Nat) (c : Conn)
    (hc : findConn st.conns connId = some c) :
    (typingStart st connId conversationId).2 =
      [Emit.toRoomExceptSelf conversationId connId
        (Event.typingUpdate conversationId c.userId true)] ∧
    (typingStop st connId conversationId).2 =
      [Emit.toRoomExceptSelf conversationId connId
        (Event.typingUpdate conversationId c.userId false)] ∧
    ∀ otherId k, findConn st.conns otherId = some k →
      (receivesEmit st (Emit.toRoomExceptSelf conversationId connId
          (Event.typingUpdate conversationId c.userId true)) otherId = true ↔
        (conversationId ∈ k.rooms ∧ otherId ≠ connId)) := by
  refine ⟨?_, ?_, ?_⟩
  · unfold typingStart
    rw [hc]
  · unfold typingStop
    rw [hc]
  · intro otherId k hk
    unfold receivesEmit
    rw [hk]
    simp

theorem C8_typing_excludes_only_socket_witness :
    ((typingStart exSt 1 10).2 =
      [Emit.toRoomExceptSelf 10 1 (Event.typingUpdate 10 5 true)]) ∧
    (receivesEmit exSt (Emit.toRoomExceptSelf 10 1
        (Event.typingUpdate 10 5 true)) 2 = true ↔
      ((10 : Nat) ∈ [(10 : Nat)] ∧ (2 : Nat) ≠ 1)) :=
  ⟨(C8_typing_excludes_only_socket exSt 1 10 { connId := 1, userId := 5, rooms := [10] }
      (by decide)).1,
   (C8_typing_excludes_only_socket exSt 1 10 { connId := 1, userId := 5, rooms := [10] }
      (by decide)).2.2 2 { connId := 2, userId := 5, rooms := [10] } (by decide)⟩

/-- After a markRead, no message of that conversation from another
sender is left unread, so a second markRead finds nothing to update. -/
theorem restMarkRead_no_hits (st : ServerState) (userId conversationId now : Nat) :
    (restMarkRead st userId conversationId now).1.messages.filter
      (markReadHits conversationId userId) = [] := by
  unfold restMarkRead
  dsimp only
  rw [List.filter_eq_nil_iff]
  intro m hm
  obtain ⟨x, hx, rfl⟩ := List.mem_map.mp hm
  by_cases hx2 : markReadHits conversationId userId x = true
  · rw [if_pos hx2]
    simp [markReadHits]
  · rw [if_neg hx2]
    simpa using hx2

/-- Claim C4 counterexample: with one unread message from user 6 in
conversation 10, user 5 calls markRead at time 10 and again at time 11
with no new messages in between.  The second call emits nothing, but
lastReadAt moves from 10 to 11 — it is not left at the value the first
call produced. -/
theorem C4_counterexample :
    (restMarkRead exSt 5 10 10).1.participants =
      [{ conversationId := 10, userId := 5, joinedAt := 0, lastReadAt := some 10 },
       { conversationId := 10, userId := 6, joinedAt := 0, lastReadAt := none }] ∧
    (restMarkRead (restMarkRead exSt 5 10 10).1 5 10 11).1.participants =
      [{ conversationId := 10, userId := 5, joinedAt := 0, lastReadAt := some 11 },
       { conversationId := 10, userId := 6, joinedAt := 0, lastReadAt := none }] ∧
    (restMarkRead (restMarkRead exSt 5 10 10).1 5 10 11).1.participants ≠
      (restMarkRead exSt 5 10 10).1.participants ∧
    (restMarkRead (restMarkRead exSt 5 10 10).1 5 10 11).2.1 = [] := by
  decide

/-- Claim C4 (amended): a second markRead right after a first one, with
no new messages in between, emits zero message:status:update events and
leaves every message unchanged; but it sets lastReadAt of the
participant row to the time of the second call rather than keeping the
value written by the first call (the two agree only when the clock has
not advanced). -/
theorem C4_markRead_second_call (st : ServerState)
    (userId conversationId t1 t2 : Nat) :
    (restMarkRead (restMarkRead st userId conversationId t1).1
        userId conversationId t2).2.1 = [] ∧
    (restMarkRead (restMarkRead st userId conversationId t1).1
        userId conversationId t2).1.messages =
      (restMarkRead st userId conversationId t1).1.messages ∧
    ∀ p ∈ (restMarkRead (restMarkRead st userId conversationId t1).1
        userId conversationId t2).1.participants,
      p.conversationId = conversationId → p.userId = userId →
        p.lastReadAt = some t2 := by
  have hno := restMarkRead_no_hits st userId conversationId t1
  refine ⟨?_, ?_, ?_⟩
  · show ((restMarkRead st userId conversationId t1).1.messages.filter
      (markReadHits conversationId userId)).map _ = []
    rw [hno]
    rfl
  · show (restMarkRead st userId conversationId t1).1.messages.map
      (fun m => if markReadHits conversationId userId m then
        { m with status := MessageStatus.read } else m) =
      (restMarkRead st userId conversationId t1).1.messages
    rw [List.filter_eq_nil_iff] at hno
    conv_rhs => rw [← List.map_id
      ((restMarkRead st userId conversationId t1).1.messages)]
    apply List.map_congr_left
    intro a ha
    rw [if_neg]
    · rfl
    · simpa using hno a ha
  · intro p hp hpc hpu
    have hp2 : p ∈ ((restMarkRead st userId conversationId t1).1.participants.map
        fun q => if q.conversationId = conversationId ∧ q.userId = userId then
          { q with lastReadAt := some t2 } else q) := hp
    obtain ⟨q, hq, rfl⟩ := List.mem_map.mp hp2
    by_cases hcond : q.conversationId = conversationId ∧ q.userId = userId
    · rw [if_pos hcond]
    · rw [if_neg hcond] at hpc hpu ⊢
      exact absurd ⟨hpc, hpu⟩ hcond

theorem C4_markRead_second_call_witness :
    (restMarkRead (restMarkRead exSt 5 10 10).1 5 10 11).2.1 = [] ∧
    (restMarkRead (restMarkRead exSt 5 10 10).1 5 10 11).1.messages =
      (restMarkRead exSt 5 10 10).1.messages :=
  ⟨(C4_markRead_second_call exSt 5 10 10 11).1,
   (C4_markRead_second_call exSt 5 10 10 11).2.1⟩

theorem mem_dedupKeepFirst : ∀ (l : List Nat) (a : Nat),
    a ∈ dedupKeepFirst l ↔ a ∈ l := by
  intro l
  induction l using dedupKeepFirst.induct with
  | case1 => simp [dedupKeepFirst]
  | case2 b l ih =>
    intro a
    rw [dedupKeepFirst]
    simp only [List.mem_cons, ih, List.mem_filter, decide_eq_true_eq]
    constructor
    · rintro (rfl | ⟨h1, _⟩)
      · exact Or.inl rfl
      · exact Or.inr h1
    · rintro (rfl | h1)
      · exact Or.inl rfl
      · by_cases hab : a = b
        · exact Or.inl hab
        · exact Or.inr ⟨h1, hab⟩

theorem nodup_dedupKeepFirst : ∀ (l : List Nat), (dedupKeepFirst l).Nodup := by
  intro l
  induction l using dedupKeepFirst.induct with
  | case1 => simp [dedupKeepFirst]
  | case2 b l ih =>
    rw [dedupKeepFirst]
    rw [List.nodup_cons]
    refine ⟨?_, ih⟩
    intro hmem
    rw [mem_dedupKeepFirst] at hmem
    have hne := (List.mem_filter.mp hmem).2
    simp at hne

/-- Claim C10: a successful conversation creation inserts exactly one
participant row per distinct user id in the set formed by the creator
followed by the supplied participantIds: the creator is always included
and duplicates never produce duplicate rows. -/
theorem C10_create_participant_rows (st : ServerState) (userId : Nat)
    (participantIds : List Nat) (name : Option String) (isGroup : Bool)
    (newConversationId now : Nat) (h : participantIds ≠ []) :
    (restCreateConversation st userId participantIds name isGroup
        newConversationId now).1.participants =
      st.participants ++ (dedupKeepFirst (userId :: participantIds)).map
        (fun u => { conversationId := newConversationId, userId := u,
                    joinedAt := now, lastReadAt := none }) ∧
    (dedupKeepFirst (userId :: participantIds)).Nodup ∧
    ∀ u, u ∈ dedupKeepFirst (userId :: participantIds) ↔
      (u = userId ∨ u ∈ participantIds) := by
  refine ⟨?_, nodup_dedupKeepFirst _, ?_⟩
  · unfold restCreateConversation
    rw [if_neg h]
  · intro u
    rw [mem_dedupKeepFirst]
    simp

theorem C10_create_participant_rows_witness :
    ((restCreateConversation exSt 5 [6, 6, 5] none false 11 3).1.participants =
      exSt.participants ++ (dedupKeepFirst (5 :: [6, 6, 5])).map
        (fun u => { conversationId := 11, userId := u, joinedAt := 3,
                    lastReadAt := none })) ∧
    ((6 : Nat) ∈ dedupKeepFirst (5 :: [6, 6, 5]) ↔
      ((6 : Nat) = 5 ∨ (6 : Nat) ∈ [6, 6, 5])) :=
  ⟨(C10_create_participant_rows exSt 5 [6, 6, 5] none false 11 3 (by decide)).1,
   (C10_create_participant_rows exSt 5 [6, 6, 5] none false 11 3 (by decide)).2.2 6⟩

end ChatApp
